import Mathlib

/-!
Shallow embedding of `src/proxy/src/telemetry/sensor/transport.rs`: the
telemetry-counting transport decorator of the linkerd2 proxy.

The wrapped stream is abstracted by the result it produces for each I/O
operation; the dispatch handle (`handle.send`) is modelled by the list of
events the operation emits; the monotonic clock (`Instant`) is modelled by
a `Nat` timestamp passed to each operation.
-/

namespace TransportSensor

/-- Kinds of I/O errors; only `WouldBlock` is distinguished by the code
(`e.kind() != io::ErrorKind::WouldBlock`); every other kind is collapsed
into `other` with a code. -/
inductive ErrorKind
  | wouldBlock
  | other (code : Nat)
deriving DecidableEq, Repr

/-- An `io::Error` value: its kind plus an opaque payload, so that
"the identical error value is propagated" is expressible. -/
structure IOError where
  kind : ErrorKind
  payload : Nat
deriving DecidableEq, Repr

/-- Model of `futures::Async`: a poll either yields a ready value or `NotReady`. -/
inductive Async (α : Type)
  | ready (value : α)
  | notReady
deriving DecidableEq, Repr

/-- The payload of `event::TransportClose`. -/
structure TransportClose where
  duration : Nat
  clean : Bool
  rx_bytes : Nat
  tx_bytes : Nat
deriving DecidableEq, Repr

/-- The events this module dispatches through the handle
(`event::Event::TransportOpen` / `event::Event::TransportClose`);
the shared context argument is not modelled (it is opaque and read-only). -/
inductive Event
  | transportOpen
  | transportClose (ev : TransportClose)
deriving DecidableEq, Repr

/-- The `Inner` accounting state of a `Transport`: the dispatch handle is
modelled by event emission, so only `opened_at` and the byte counters
remain. -/
structure Inner where
  opened_at : Nat
  rx_bytes : Nat
  tx_bytes : Nat
deriving DecidableEq, Repr

/-- Model of `Transport<T>`: the wrapped stream `io` is abstracted by operation
results, the context is opaque; what remains is the optional accounting
state. -/
structure Transport where
  inner : Option Inner
deriving DecidableEq, Repr

/-- Model of `Transport::open`: builds the accounting state with zero counters and
emits the `TransportOpen` event. -/
def Transport.open_ (opened_at : Nat) : Transport × List Event :=
  ({ inner := some { opened_at := opened_at, rx_bytes := 0, tx_bytes := 0 } },
   [Event.transportOpen])

/-- Model of `Transport::sense_err`: wraps an operation result from the underlying
stream.  On a non-`WouldBlock` error it takes `inner` (if still present)
and emits a `TransportClose` with `clean = false`; the error is returned
unchanged in every case. -/
def sense_err {U : Type} (t : Transport) (now : Nat) (r : Except IOError U) :
    Except IOError U × Transport × List Event :=
  match r with
  | Except.ok v => (Except.ok v, t, [])
  | Except.error e =>
    if e.kind ≠ ErrorKind.wouldBlock then
      match t.inner with
      | some i =>
        (Except.error e, { inner := none },
         [Event.transportClose
            { duration := now - i.opened_at, clean := false,
              rx_bytes := i.rx_bytes, tx_bytes := i.tx_bytes }])
      | none => (Except.error e, t, [])
    else
      (Except.error e, t, [])

/-- Model of `io::Read::read` for `Transport`: `sense_err` around the underlying
read; on success `rx_bytes` is incremented by the reported count when
`inner` is still present. -/
def Transport.read (t : Transport) (now : Nat) (r : Except IOError Nat) :
    Except IOError Nat × Transport × List Event :=
  match sense_err t now r with
  | (Except.ok bytes, t1, evs) =>
    match t1.inner with
    | some i =>
      (Except.ok bytes, { inner := some { i with rx_bytes := i.rx_bytes + bytes } }, evs)
    | none => (Except.ok bytes, t1, evs)
  | (Except.error e, t1, evs) => (Except.error e, t1, evs)

/-- Model of `io::Write::write` for `Transport`: symmetric to `read`, tallying
`tx_bytes`. -/
def Transport.write (t : Transport) (now : Nat) (r : Except IOError Nat) :
    Except IOError Nat × Transport × List Event :=
  match sense_err t now r with
  | (Except.ok bytes, t1, evs) =>
    match t1.inner with
    | some i =>
      (Except.ok bytes, { inner := some { i with tx_bytes := i.tx_bytes + bytes } }, evs)
    | none => (Except.ok bytes, t1, evs)
  | (Except.error e, t1, evs) => (Except.error e, t1, evs)

/-- Model of `io::Write::flush` for `Transport`: just `sense_err`, no counter
effect. -/
def Transport.flush (t : Transport) (now : Nat) (r : Except IOError Unit) :
    Except IOError Unit × Transport × List Event :=
  sense_err t now r

/-- Model of `AsyncWrite::shutdown` for `Transport`: just `sense_err`, no counter
effect. -/
def Transport.shutdown (t : Transport) (now : Nat) (r : Except IOError (Async Unit)) :
    Except IOError (Async Unit) × Transport × List Event :=
  sense_err t now r

/-- Model of `AsyncWrite::write_buf` for `Transport`: `try_ready!` around
`sense_err`; only a `Ready(bytes)` outcome increments `tx_bytes`. -/
def Transport.write_buf (t : Transport) (now : Nat) (r : Except IOError (Async Nat)) :
    Except IOError (Async Nat) × Transport × List Event :=
  match sense_err t now r with
  | (Except.ok (Async.ready bytes), t1, evs) =>
    match t1.inner with
    | some i =>
      (Except.ok (Async.ready bytes),
       { inner := some { i with tx_bytes := i.tx_bytes + bytes } }, evs)
    | none => (Except.ok (Async.ready bytes), t1, evs)
  | (Except.ok Async.notReady, t1, evs) => (Except.ok Async.notReady, t1, evs)
  | (Except.error e, t1, evs) => (Except.error e, t1, evs)

/-- Model of `Peek::poll_peek` for `Transport`: just `sense_err`, no counter
effect. -/
def Transport.poll_peek (t : Transport) (now : Nat) (r : Except IOError (Async Nat)) :
    Except IOError (Async Nat) × Transport × List Event :=
  sense_err t now r

/-- Model of `impl Drop for Transport`: takes `inner` if present and emits a
`TransportClose` with `clean = true`; a no-op otherwise. -/
def Transport.drop (t : Transport) (now : Nat) : List Event :=
  match t.inner with
  | some i =>
    [Event.transportClose
       { duration := now - i.opened_at, clean := true,
         rx_bytes := i.rx_bytes, tx_bytes := i.tx_bytes }]
  | none => []

/-- Model of `impl Future for Connecting`: polling the underlying connection
attempt.  An error is propagated verbatim with no event; `NotReady`
suspends; a ready stream is wrapped via `Transport::open` at the current
instant (context construction is opaque and emits nothing). -/
def Connecting.poll {ε Conn : Type} (r : Except ε (Async Conn)) (now : Nat) :
    Except ε (Async Transport) × List Event :=
  match r with
  | Except.error e => (Except.error e, [])
  | Except.ok Async.notReady => (Except.ok Async.notReady, [])
  | Except.ok (Async.ready _io) =>
    let (t, evs) := Transport.open_ now
    (Except.ok (Async.ready t), evs)

/-- One I/O operation on a `Transport`, carrying the result the wrapped
stream produces for it. -/
inductive Op
  | read (r : Except IOError Nat)
  | write (r : Except IOError Nat)
  | write_buf (r : Except IOError (Async Nat))
  | flush (r : Except IOError Unit)
  | shutdown (r : Except IOError (Async Unit))
  | poll_peek (r : Except IOError (Async Nat))
deriving Repr

/-- Run one operation, keeping the state change and the emitted events. -/
def Transport.step (t : Transport) (now : Nat) (op : Op) : Transport × List Event :=
  match op with
  | Op.read r => (t.read now r).2
  | Op.write r => (t.write now r).2
  | Op.write_buf r => (t.write_buf now r).2
  | Op.flush r => (t.flush now r).2
  | Op.shutdown r => (t.shutdown now r).2
  | Op.poll_peek r => (t.poll_peek now r).2

/-- Run a timed sequence of operations, accumulating emitted events. -/
def Transport.run (t : Transport) : List (Nat × Op) → Transport × List Event
  | [] => (t, [])
  | (now, op) :: rest =>
    let (t1, evs) := t.step now op
    let (t2, evs') := t1.run rest
    (t2, evs ++ evs')

/-- The full event trace of one `Transport` lifetime: construction at
`t0`, a timed operation sequence, then drop at `tdrop`. -/
def lifetime (t0 : Nat) (ops : List (Nat × Op)) (tdrop : Nat) : List Event :=
  let (t, evs0) := Transport.open_ t0
  let (t1, evs1) := t.run ops
  evs0 ++ evs1 ++ t1.drop tdrop

/-- Is this event a `TransportClose`? -/
def Event.isClose : Event → Bool
  | Event.transportClose _ => true
  | _ => false

/-- Is this event a `TransportOpen`? -/
def Event.isOpenEv : Event → Bool
  | Event.transportOpen => true
  | _ => false

/-- Number of `TransportClose` events in a trace. -/
def closeCount (evs : List Event) : Nat := evs.countP Event.isClose

/-- Number of `TransportOpen` events in a trace. -/
def openCount (evs : List Event) : Nat := evs.countP Event.isOpenEv

/-- Does this operation end in a non-`WouldBlock` (terminal) error? -/
def Op.isTerminal : Op → Bool
  | Op.read (Except.error e) => e.kind ≠ ErrorKind.wouldBlock
  | Op.write (Except.error e) => e.kind ≠ ErrorKind.wouldBlock
  | Op.write_buf (Except.error e) => e.kind ≠ ErrorKind.wouldBlock
  | Op.flush (Except.error e) => e.kind ≠ ErrorKind.wouldBlock
  | Op.shutdown (Except.error e) => e.kind ≠ ErrorKind.wouldBlock
  | Op.poll_peek (Except.error e) => e.kind ≠ ErrorKind.wouldBlock
  | _ => false

/-- The error carried by the underlying result of an operation, if any. -/
def Op.result_err : Op → Option IOError
  | Op.read (Except.error e) => some e
  | Op.write (Except.error e) => some e
  | Op.write_buf (Except.error e) => some e
  | Op.flush (Except.error e) => some e
  | Op.shutdown (Except.error e) => some e
  | Op.poll_peek (Except.error e) => some e
  | _ => none

/-- Bytes a successfully completed read reports. -/
def Op.readGain : Op → Nat
  | Op.read (Except.ok n) => n
  | _ => 0

/-- Bytes a successfully completed write (or ready `write_buf`) reports. -/
def Op.writeGain : Op → Nat
  | Op.write (Except.ok n) => n
  | Op.write_buf (Except.ok (Async.ready n)) => n
  | _ => 0

/-- Total bytes received over a timed operation sequence. -/
def readSum (ops : List (Nat × Op)) : Nat := (ops.map (fun p => p.2.readGain)).sum

/-- Total bytes sent over a timed operation sequence. -/
def writeSum (ops : List (Nat × Op)) : Nat := (ops.map (fun p => p.2.writeGain)).sum

/-! ### Basic characterizations of `sense_err` -/

theorem transport_cases (t : Transport) :
    t = ⟨none⟩ ∨ ∃ a rx tx, t = ⟨some ⟨a, rx, tx⟩⟩ := by
  obtain ⟨inner⟩ := t
  cases inner with
  | none => exact Or.inl rfl
  | some i => exact Or.inr ⟨i.opened_at, i.rx_bytes, i.tx_bytes, rfl⟩

theorem sense_err_ok {U : Type} (t : Transport) (now : Nat) (v : U) :
    sense_err t now (Except.ok v) = (Except.ok v, t, []) := rfl

theorem sense_err_wouldBlock {U : Type} (t : Transport) (now : Nat) (e : IOError)
    (h : e.kind = ErrorKind.wouldBlock) :
    @sense_err U t now (Except.error e) = (Except.error e, t, []) := by
  simp [sense_err, h]

theorem sense_err_none {U : Type} (now : Nat) (r : Except IOError U) :
    sense_err (⟨none⟩ : Transport) now r = (r, ⟨none⟩, []) := by
  cases r with
  | ok v => rfl
  | error e =>
    by_cases h : e.kind = ErrorKind.wouldBlock
    · exact sense_err_wouldBlock _ _ _ h
    · simp [sense_err, h]

theorem sense_err_terminal {U : Type} (a rx tx now : Nat) (e : IOError)
    (h : e.kind ≠ ErrorKind.wouldBlock) :
    @sense_err U (⟨some ⟨a, rx, tx⟩⟩ : Transport) now (Except.error e) =
      (Except.error e, ⟨none⟩,
       [Event.transportClose ⟨now - a, false, rx, tx⟩]) := by
  unfold sense_err
  simp [h]

/-! ### Per-operation lemmas -/

theorem read_none (now : Nat) (r : Except IOError Nat) :
    Transport.read ⟨none⟩ now r = (r, ⟨none⟩, []) := by
  cases r with
  | ok v => rfl
  | error e =>
    unfold Transport.read
    rw [sense_err_none]

theorem read_ok (a rx tx now n : Nat) :
    Transport.read ⟨some ⟨a, rx, tx⟩⟩ now (Except.ok n) =
      (Except.ok n, ⟨some ⟨a, rx + n, tx⟩⟩, []) := rfl

theorem read_wouldBlock (t : Transport) (now : Nat) (e : IOError)
    (h : e.kind = ErrorKind.wouldBlock) :
    t.read now (Except.error e) = (Except.error e, t, []) := by
  unfold Transport.read
  rw [sense_err_wouldBlock t now e h]

theorem read_terminal (a rx tx now : Nat) (e : IOError)
    (h : e.kind ≠ ErrorKind.wouldBlock) :
    Transport.read ⟨some ⟨a, rx, tx⟩⟩ now (Except.error e) =
      (Except.error e, ⟨none⟩,
       [Event.transportClose ⟨now - a, false, rx, tx⟩]) := by
  unfold Transport.read
  rw [sense_err_terminal a rx tx now e h]

theorem write_none (now : Nat) (r : Except IOError Nat) :
    Transport.write ⟨none⟩ now r = (r, ⟨none⟩, []) := by
  cases r with
  | ok v => rfl
  | error e =>
    unfold Transport.write
    rw [sense_err_none]

theorem write_ok (a rx tx now n : Nat) :
    Transport.write ⟨some ⟨a, rx, tx⟩⟩ now (Except.ok n) =
      (Except.ok n, ⟨some ⟨a, rx, tx + n⟩⟩, []) := rfl

theorem write_wouldBlock (t : Transport) (now : Nat) (e : IOError)
    (h : e.kind = ErrorKind.wouldBlock) :
    t.write now (Except.error e) = (Except.error e, t, []) := by
  unfold Transport.write
  rw [sense_err_wouldBlock t now e h]

theorem write_terminal (a rx tx now : Nat) (e : IOError)
    (h : e.kind ≠ ErrorKind.wouldBlock) :
    Transport.write ⟨some ⟨a, rx, tx⟩⟩ now (Except.error e) =
      (Except.error e, ⟨none⟩,
       [Event.transportClose ⟨now - a, false, rx, tx⟩]) := by
  unfold Transport.write
  rw [sense_err_terminal a rx tx now e h]

theorem write_buf_none (now : Nat) (r : Except IOError (Async Nat)) :
    Transport.write_buf ⟨none⟩ now r = (r, ⟨none⟩, []) := by
  cases r with
  | ok v =>
    cases v with
    | ready n => rfl
    | notReady => rfl
  | error e =>
    unfold Transport.write_buf
    rw [sense_err_none]

theorem write_buf_ready (a rx tx now n : Nat) :
    Transport.write_buf ⟨some ⟨a, rx, tx⟩⟩ now (Except.ok (Async.ready n)) =
      (Except.ok (Async.ready n), ⟨some ⟨a, rx, tx + n⟩⟩, []) := rfl

theorem write_buf_notReady (t : Transport) (now : Nat) :
    t.write_buf now (Except.ok Async.notReady) =
      (Except.ok Async.notReady, t, []) := rfl

theorem write_buf_wouldBlock (t : Transport) (now : Nat) (e : IOError)
    (h : e.kind = ErrorKind.wouldBlock) :
    t.write_buf now (Except.error e) = (Except.error e, t, []) := by
  unfold Transport.write_buf
  rw [sense_err_wouldBlock t now e h]

theorem write_buf_terminal (a rx tx now : Nat) (e : IOError)
    (h : e.kind ≠ ErrorKind.wouldBlock) :
    Transport.write_buf ⟨some ⟨a, rx, tx⟩⟩ now (Except.error e) =
      (Except.error e, ⟨none⟩,
       [Event.transportClose ⟨now - a, false, rx, tx⟩]) := by
  unfold Transport.write_buf
  rw [sense_err_terminal a rx tx now e h]

/-! ### Step and run lemmas -/

theorem step_none (now : Nat) (op : Op) :
    Transport.step ⟨none⟩ now op = (⟨none⟩, []) := by
  cases op with
  | read r => simp [Transport.step, read_none]
  | write r => simp [Transport.step, write_none]
  | write_buf r => simp [Transport.step, write_buf_none]
  | flush r => simp [Transport.step, Transport.flush, sense_err_none]
  | shutdown r => simp [Transport.step, Transport.shutdown, sense_err_none]
  | poll_peek r => simp [Transport.step, Transport.poll_peek, sense_err_none]

theorem step_nonterminal (a rx tx now : Nat) (op : Op) (h : op.isTerminal = false) :
    Transport.step ⟨some ⟨a, rx, tx⟩⟩ now op =
      (⟨some ⟨a, rx + op.readGain, tx + op.writeGain⟩⟩, []) := by
  cases op with
  | read r =>
    cases r with
    | ok n => simp [Transport.step, read_ok, Op.readGain, Op.writeGain]
    | error e =>
      have hk : e.kind = ErrorKind.wouldBlock := by
        by_contra hk
        simp [Op.isTerminal, hk] at h
      simp [Transport.step, read_wouldBlock _ _ _ hk, Op.readGain, Op.writeGain]
  | write r =>
    cases r with
    | ok n => simp [Transport.step, write_ok, Op.readGain, Op.writeGain]
    | error e =>
      have hk : e.kind = ErrorKind.wouldBlock := by
        by_contra hk
        simp [Op.isTerminal, hk] at h
      simp [Transport.step, write_wouldBlock _ _ _ hk, Op.readGain, Op.writeGain]
  | write_buf r =>
    cases r with
    | ok v =>
      cases v with
      | ready n => simp [Transport.step, write_buf_ready, Op.readGain, Op.writeGain]
      | notReady => simp [Transport.step, write_buf_notReady, Op.readGain, Op.writeGain]
    | error e =>
      have hk : e.kind = ErrorKind.wouldBlock := by
        by_contra hk
        simp [Op.isTerminal, hk] at h
      simp [Transport.step, write_buf_wouldBlock _ _ _ hk, Op.readGain, Op.writeGain]
  | flush r =>
    cases r with
    | ok v => simp [Transport.step, Transport.flush, sense_err_ok, Op.readGain, Op.writeGain]
    | error e =>
      have hk : e.kind = ErrorKind.wouldBlock := by
        by_contra hk
        simp [Op.isTerminal, hk] at h
      simp [Transport.step, Transport.flush, sense_err_wouldBlock _ _ _ hk,
        Op.readGain, Op.writeGain]
  | shutdown r =>
    cases r with
    | ok v => simp [Transport.step, Transport.shutdown, sense_err_ok, Op.readGain, Op.writeGain]
    | error e =>
      have hk : e.kind = ErrorKind.wouldBlock := by
        by_contra hk
        simp [Op.isTerminal, hk] at h
      simp [Transport.step, Transport.shutdown, sense_err_wouldBlock _ _ _ hk,
        Op.readGain, Op.writeGain]
  | poll_peek r =>
    cases r with
    | ok v => simp [Transport.step, Transport.poll_peek, sense_err_ok, Op.readGain, Op.writeGain]
    | error e =>
      have hk : e.kind = ErrorKind.wouldBlock := by
        by_contra hk
        simp [Op.isTerminal, hk] at h
      simp [Transport.step, Transport.poll_peek, sense_err_wouldBlock _ _ _ hk,
        Op.readGain, Op.writeGain]

theorem step_terminal (a rx tx now : Nat) (op : Op) (h : op.isTerminal = true) :
    Transport.step ⟨some ⟨a, rx, tx⟩⟩ now op =
      (⟨none⟩, [Event.transportClose ⟨now - a, false, rx, tx⟩]) := by
  cases op with
  | read r =>
    cases r with
    | ok n => simp [Op.isTerminal] at h
    | error e =>
      have hk : e.kind ≠ ErrorKind.wouldBlock := by simpa [Op.isTerminal] using h
      simp [Transport.step, read_terminal a rx tx now e hk]
  | write r =>
    cases r with
    | ok n => simp [Op.isTerminal] at h
    | error e =>
      have hk : e.kind ≠ ErrorKind.wouldBlock := by simpa [Op.isTerminal] using h
      simp [Transport.step, write_terminal a rx tx now e hk]
  | write_buf r =>
    cases r with
    | ok v => simp [Op.isTerminal] at h
    | error e =>
      have hk : e.kind ≠ ErrorKind.wouldBlock := by simpa [Op.isTerminal] using h
      simp [Transport.step, write_buf_terminal a rx tx now e hk]
  | flush r =>
    cases r with
    | ok v => simp [Op.isTerminal] at h
    | error e =>
      have hk : e.kind ≠ ErrorKind.wouldBlock := by simpa [Op.isTerminal] using h
      simp [Transport.step, Transport.flush, sense_err_terminal a rx tx now e hk]
  | shutdown r =>
    cases r with
    | ok v => simp [Op.isTerminal] at h
    | error e =>
      have hk : e.kind ≠ ErrorKind.wouldBlock := by simpa [Op.isTerminal] using h
      simp [Transport.step, Transport.shutdown, sense_err_terminal a rx tx now e hk]
  | poll_peek r =>
    cases r with
    | ok v => simp [Op.isTerminal] at h
    | error e =>
      have hk : e.kind ≠ ErrorKind.wouldBlock := by simpa [Op.isTerminal] using h
      simp [Transport.step, Transport.poll_peek, sense_err_terminal a rx tx now e hk]

theorem run_cons (t : Transport) (now : Nat) (op : Op) (rest : List (Nat × Op)) :
    t.run ((now, op) :: rest) =
      (((t.step now op).1.run rest).1,
       (t.step now op).2 ++ ((t.step now op).1.run rest).2) := by
  simp [Transport.run]

theorem run_none (ops : List (Nat × Op)) :
    Transport.run ⟨none⟩ ops = (⟨none⟩, []) := by
  induction ops with
  | nil => rfl
  | cons p rest ih =>
    obtain ⟨now, op⟩ := p
    rw [run_cons, step_none]
    simp [ih]

theorem run_append (t : Transport) (xs ys : List (Nat × Op)) :
    t.run (xs ++ ys) =
      (((t.run xs).1.run ys).1, (t.run xs).2 ++ ((t.run xs).1.run ys).2) := by
  induction xs generalizing t with
  | nil => simp [Transport.run]
  | cons p rest ih =>
    obtain ⟨now, op⟩ := p
    rw [List.cons_append, run_cons, run_cons, ih]
    simp [List.append_assoc]

theorem run_nonterminal (ops : List (Nat × Op)) (a rx tx : Nat)
    (h : ∀ p ∈ ops, p.2.isTerminal = false) :
    Transport.run ⟨some ⟨a, rx, tx⟩⟩ ops =
      (⟨some ⟨a, rx + readSum ops, tx + writeSum ops⟩⟩, []) := by
  induction ops generalizing rx tx with
  | nil => simp [Transport.run, readSum, writeSum]
  | cons p rest ih =>
    obtain ⟨now, op⟩ := p
    have h1 : op.isTerminal = false := h (now, op) (List.mem_cons_self _ _)
    have h2 : ∀ q ∈ rest, q.2.isTerminal = false :=
      fun q hq => h q (List.mem_cons_of_mem _ hq)
    rw [run_cons, step_nonterminal a rx tx now op h1]
    simp [ih _ _ h2, readSum, writeSum, Nat.add_assoc]

/-! ### Lifetime trace characterizations -/

theorem exists_first_terminal (ops : List (Nat × Op)) :
    (∀ p ∈ ops, p.2.isTerminal = false) ∨
    ∃ pre q post, ops = pre ++ q :: post ∧
      (∀ p ∈ pre, p.2.isTerminal = false) ∧ q.2.isTerminal = true := by
  induction ops with
  | nil =>
    left
    intro p hp
    simp at hp
  | cons p rest ih =>
    by_cases hp : p.2.isTerminal = true
    · right
      exact ⟨[], p, rest, by simp, by simp, hp⟩
    · have hp' : p.2.isTerminal = false := by
        simpa using hp
      cases ih with
      | inl h =>
        left
        intro q hq
        rcases List.mem_cons.mp hq with h1 | h2
        · rw [h1]; exact hp'
        · exact h q h2
      | inr h =>
        obtain ⟨pre, q, post, e1, e2, e3⟩ := h
        right
        refine ⟨p :: pre, q, post, by simp [e1], ?_, e3⟩
        intro x hx
        rcases List.mem_cons.mp hx with h1 | h2
        · rw [h1]; exact hp'
        · exact e2 x h2

theorem drop_some (a rx tx now : Nat) :
    Transport.drop ⟨some ⟨a, rx, tx⟩⟩ now =
      [Event.transportClose ⟨now - a, true, rx, tx⟩] := rfl

theorem drop_none_eq (now : Nat) : Transport.drop ⟨none⟩ now = [] := rfl

theorem lifetime_nonterminal (t0 tdrop : Nat) (ops : List (Nat × Op))
    (h : ∀ p ∈ ops, p.2.isTerminal = false) :
    lifetime t0 ops tdrop =
      [Event.transportOpen,
       Event.transportClose ⟨tdrop - t0, true, readSum ops, writeSum ops⟩] := by
  unfold lifetime Transport.open_
  dsimp only
  rw [run_nonterminal ops t0 0 0 h]
  simp [Transport.drop]

theorem lifetime_terminal (t0 tdrop tn : Nat) (op : Op) (pre post : List (Nat × Op))
    (hpre : ∀ p ∈ pre, p.2.isTerminal = false) (hop : op.isTerminal = true) :
    lifetime t0 (pre ++ (tn, op) :: post) tdrop =
      [Event.transportOpen,
       Event.transportClose ⟨tn - t0, false, readSum pre, writeSum pre⟩] := by
  unfold lifetime Transport.open_
  dsimp only
  rw [run_append, run_nonterminal pre t0 0 0 hpre, run_cons]
  simp only [step_terminal t0 (0 + readSum pre) (0 + writeSum pre) tn op hop]
  rw [run_none]
  simp [Transport.drop]

/-! ### Claim theorems -/

/-- Claim C1: over every Transport lifetime — error then drop, drop only,
shutdown-success then drop, shutdown-error then drop — exactly one
TransportClose event is dispatched; the accounting state never returns
from absent to present; a step emits a close exactly when the accounting
state transitions from present to absent, and drop emits a close exactly
when the accounting state is still present. -/
theorem close_emitted_exactly_once :
    (∀ (t0 tdrop : Nat) (ops : List (Nat × Op)),
        closeCount (lifetime t0 ops tdrop) = 1) ∧
    (∀ (t : Transport) (now : Nat) (op : Op),
        t.inner = none → (t.step now op).1.inner = none) ∧
    (∀ (t : Transport) (now : Nat) (op : Op),
        closeCount (t.step now op).2 = 1 ↔
          (t.inner ≠ none ∧ (t.step now op).1.inner = none)) ∧
    (∀ (t : Transport) (now : Nat),
        closeCount (t.drop now) = 1 ↔ t.inner ≠ none) := by
  refine ⟨?_, ?_, ?_, ?_⟩
  · intro t0 tdrop ops
    rcases exists_first_terminal ops with h | ⟨pre, q, post, e1, e2, e3⟩
    · rw [lifetime_nonterminal t0 tdrop ops h]
      simp [closeCount, List.countP_cons, Event.isClose]
    · obtain ⟨tn, op⟩ := q
      rw [e1, lifetime_terminal t0 tdrop tn op pre post e2 e3]
      simp [closeCount, List.countP_cons, Event.isClose]
  · intro t now op h
    rcases transport_cases t with ht | ⟨a, rx, tx, ht⟩ <;> subst ht
    · rw [step_none]
    · simp at h
  · intro t now op
    rcases transport_cases t with ht | ⟨a, rx, tx, ht⟩ <;> subst ht
    · rw [step_none]
      simp [closeCount]
    · by_cases hop : op.isTerminal = true
      · rw [step_terminal a rx tx now op hop]
        simp [closeCount, List.countP_cons, Event.isClose]
      · have hop' : op.isTerminal = false := by simpa using hop
        rw [step_nonterminal a rx tx now op hop']
        simp [closeCount]
  · intro t now
    rcases transport_cases t with ht | ⟨a, rx, tx, ht⟩ <;> subst ht
    · simp [Transport.drop, closeCount]
    · simp [drop_some, closeCount, List.countP_cons, Event.isClose]

theorem close_emitted_exactly_once_witness :
    (⟨none⟩ : Transport).inner = none ∧
    (Transport.step ⟨none⟩ 0 (Op.read (Except.ok 5))).1.inner = none :=
  ⟨rfl, close_emitted_exactly_once.2.1 ⟨none⟩ 0 (Op.read (Except.ok 5)) rfl⟩

/-- Claim C5: on every operation whose underlying result is an error, the
error value returned to the caller is the identical error produced by the
wrapped stream, whether or not a close event was emitted. -/
theorem errors_propagated_verbatim (t : Transport) (now : Nat) (e : IOError) :
    (t.read now (Except.error e)).1 = Except.error e ∧
    (t.write now (Except.error e)).1 = Except.error e ∧
    (t.write_buf now (Except.error e)).1 = Except.error e ∧
    (t.flush now (Except.error e)).1 = Except.error e ∧
    (t.shutdown now (Except.error e)).1 = Except.error e ∧
    (t.poll_peek now (Except.error e)).1 = Except.error e := by
  rcases transport_cases t with ht | ⟨a, rx, tx, ht⟩ <;> subst ht
  · simp [read_none, write_none, write_buf_none, Transport.flush,
      Transport.shutdown, Transport.poll_peek, sense_err_none]
  · by_cases hk : e.kind = ErrorKind.wouldBlock
    · simp [read_wouldBlock _ _ _ hk, write_wouldBlock _ _ _ hk,
        write_buf_wouldBlock _ _ _ hk, Transport.flush, Transport.shutdown,
        Transport.poll_peek, sense_err_wouldBlock _ _ _ hk]
    · simp [read_terminal _ _ _ _ _ hk, write_terminal _ _ _ _ _ hk,
        write_buf_terminal _ _ _ _ _ hk, Transport.flush, Transport.shutdown,
        Transport.poll_peek, sense_err_terminal _ _ _ _ _ hk]

/-- Claim C6: polling a Connecting whose underlying connection attempt
resolves to an error propagates that error verbatim and emits no telemetry
event at all. -/
theorem connect_failure_emits_nothing {ε Conn : Type} (e : ε) (now : Nat) :
    @Connecting.poll ε Conn (Except.error e) now =
      (Except.error e, ([] : List Event)) := rfl

/-- Claim C7: the TransportOpen event is dispatched exactly once, by the
open constructor, and it is the first event of every lifetime trace, so
it precedes the close event of the same connection. -/
theorem open_emitted_once_and_first (t0 tdrop : Nat) (ops : List (Nat × Op)) :
    Transport.open_ t0 = (⟨some ⟨t0, 0, 0⟩⟩, [Event.transportOpen]) ∧
    openCount (lifetime t0 ops tdrop) = 1 ∧
    (lifetime t0 ops tdrop).head? = some Event.transportOpen := by
  refine ⟨rfl, ?_, ?_⟩ <;>
  rcases exists_first_terminal ops with h | ⟨pre, q, post, e1, e2, e3⟩
  · rw [lifetime_nonterminal t0 tdrop ops h]
    simp [openCount, List.countP_cons, Event.isOpenEv]
  · obtain ⟨tn, op⟩ := q
    rw [e1, lifetime_terminal t0 tdrop tn op pre post e2 e3]
    simp [openCount, List.countP_cons, Event.isOpenEv]
  · rw [lifetime_nonterminal t0 tdrop ops h]
    rfl
  · obtain ⟨tn, op⟩ := q
    rw [e1, lifetime_terminal t0 tdrop tn op pre post e2 e3]
    rfl

/-- Claim C9: poll_peek forwards transparently to the wrapped stream:
success and would-block leave the whole state (counters included)
unchanged, a terminal error closes with the counters exactly as they
were, and after close it is absorbing — peeked bytes are never counted. -/
theorem peek_preserves_counters :
    (∀ (t : Transport) (now : Nat) (v : Async Nat),
        t.poll_peek now (Except.ok v) = (Except.ok v, t, [])) ∧
    (∀ (t : Transport) (now : Nat) (e : IOError), e.kind = ErrorKind.wouldBlock →
        t.poll_peek now (Except.error e) = (Except.error e, t, [])) ∧
    (∀ (a rx tx now : Nat) (e : IOError), e.kind ≠ ErrorKind.wouldBlock →
        Transport.poll_peek ⟨some ⟨a, rx, tx⟩⟩ now (Except.error e) =
          (Except.error e, ⟨none⟩,
           [Event.transportClose ⟨now - a, false, rx, tx⟩])) ∧
    (∀ (now : Nat) (r : Except IOError (Async Nat)),
        Transport.poll_peek ⟨none⟩ now r = (r, ⟨none⟩, [])) :=
  ⟨fun _ _ _ => rfl,
   fun t now e h => sense_err_wouldBlock t now e h,
   fun a rx tx now e h => sense_err_terminal a rx tx now e h,
   fun now r => sense_err_none now r⟩

theorem peek_preserves_counters_witness :
    (IOError.mk ErrorKind.wouldBlock 7).kind = ErrorKind.wouldBlock ∧
    Transport.poll_peek ⟨some ⟨0, 4, 5⟩⟩ 9 (Except.error ⟨ErrorKind.wouldBlock, 7⟩) =
      (Except.error ⟨ErrorKind.wouldBlock, 7⟩, ⟨some ⟨0, 4, 5⟩⟩, []) :=
  ⟨rfl, peek_preserves_counters.2.1 ⟨some ⟨0, 4, 5⟩⟩ 9 ⟨ErrorKind.wouldBlock, 7⟩ rfl⟩

/-- Claim C10: once the accounting state is absent (after close-on-error),
every operation still forwards the result of the wrapped stream unchanged, no
counter is incremented even on success, and no further event is emitted —
neither by a later terminal error nor by the eventual drop. -/
theorem closed_transport_absorbing (now : Nat)
    (r1 r2 : Except IOError Nat) (r3 r6 : Except IOError (Async Nat))
    (r4 : Except IOError Unit) (r5 : Except IOError (Async Unit)) :
    Transport.read ⟨none⟩ now r1 = (r1, ⟨none⟩, []) ∧
    Transport.write ⟨none⟩ now r2 = (r2, ⟨none⟩, []) ∧
    Transport.write_buf ⟨none⟩ now r3 = (r3, ⟨none⟩, []) ∧
    Transport.flush ⟨none⟩ now r4 = (r4, ⟨none⟩, []) ∧
    Transport.shutdown ⟨none⟩ now r5 = (r5, ⟨none⟩, []) ∧
    Transport.poll_peek ⟨none⟩ now r6 = (r6, ⟨none⟩, []) ∧
    Transport.drop ⟨none⟩ now = [] :=
  ⟨read_none now r1, write_none now r2, write_buf_none now r3,
   sense_err_none now r4, sense_err_none now r5, sense_err_none now r6, rfl⟩

/-- Claim C2: counters start at zero at open; while accounting is present
they are monotonically non-decreasing and are incremented exactly by the
byte count each successful read/write reports; the single close event —
whether from drop or from close-on-error — carries the totals of the
successful reads and writes completed before termination. -/
theorem byte_counter_fidelity :
    (∀ t0 : Nat, Transport.open_ t0 =
        (⟨some ⟨t0, 0, 0⟩⟩, [Event.transportOpen])) ∧
    (∀ (t : Transport) (now : Nat) (op : Op) (a rx tx a' rx' tx' : Nat),
        t.inner = some ⟨a, rx, tx⟩ →
        (t.step now op).1.inner = some ⟨a', rx', tx'⟩ →
          a' = a ∧ rx ≤ rx' ∧ tx ≤ tx') ∧
    (∀ (a rx tx now : Nat) (op : Op), op.isTerminal = false →
        Transport.step ⟨some ⟨a, rx, tx⟩⟩ now op =
          (⟨some ⟨a, rx + op.readGain, tx + op.writeGain⟩⟩, [])) ∧
    (∀ (t0 tdrop : Nat) (ops : List (Nat × Op)),
        (∀ p ∈ ops, p.2.isTerminal = false) →
        lifetime t0 ops tdrop =
          [Event.transportOpen,
           Event.transportClose ⟨tdrop - t0, true, readSum ops, writeSum ops⟩]) ∧
    (∀ (t0 tdrop tn : Nat) (op : Op) (pre post : List (Nat × Op)),
        (∀ p ∈ pre, p.2.isTerminal = false) → op.isTerminal = true →
        lifetime t0 (pre ++ (tn, op) :: post) tdrop =
          [Event.transportOpen,
           Event.transportClose ⟨tn - t0, false, readSum pre, writeSum pre⟩]) := by
  refine ⟨fun t0 => rfl, ?_, step_nonterminal,
    fun t0 tdrop ops h => lifetime_nonterminal t0 tdrop ops h,
    fun t0 tdrop tn op pre post h1 h2 =>
      lifetime_terminal t0 tdrop tn op pre post h1 h2⟩
  intro t now op a rx tx a' rx' tx' h1 h2
  obtain ⟨inner⟩ := t
  dsimp only at h1
  subst h1
  by_cases hop : op.isTerminal = true
  · rw [step_terminal a rx tx now op hop] at h2
    simp at h2
  · have hop' : op.isTerminal = false := by simpa using hop
    rw [step_nonterminal a rx tx now op hop'] at h2
    simp only [Option.some.injEq, Inner.mk.injEq] at h2
    obtain ⟨ha, hrx, htx⟩ := h2
    refine ⟨ha.symm, ?_, ?_⟩ <;> omega

theorem byte_counter_fidelity_witness :
    (∀ p ∈ ([(1, Op.read (Except.ok 50)), (2, Op.write (Except.ok 100))] :
        List (Nat × Op)), p.2.isTerminal = false) ∧
    lifetime 0 [(1, Op.read (Except.ok 50)), (2, Op.write (Except.ok 100))] 7 =
      [Event.transportOpen, Event.transportClose ⟨7, true, 50, 100⟩] := by
  have hops : ∀ p ∈ ([(1, Op.read (Except.ok 50)),
      (2, Op.write (Except.ok 100))] : List (Nat × Op)),
      p.2.isTerminal = false := by decide
  exact ⟨hops, byte_counter_fidelity.2.2.2.1 0 7 _ hops⟩

/-- Claim C3: the single close event of a lifetime has clean = true iff no
operation on the instance produced a non-would-block error; a close
triggered by such an error carries clean = false, and a close triggered
by drop carries clean = true. -/
theorem clean_iff_no_terminal_error :
    (∀ (t0 tdrop : Nat) (ops : List (Nat × Op)) (ev : TransportClose),
        Event.transportClose ev ∈ lifetime t0 ops tdrop →
          (ev.clean = true ↔ ∀ p ∈ ops, p.2.isTerminal = false)) ∧
    (∀ (a rx tx now : Nat) (op : Op), op.isTerminal = true →
        Transport.step ⟨some ⟨a, rx, tx⟩⟩ now op =
          (⟨none⟩, [Event.transportClose ⟨now - a, false, rx, tx⟩])) ∧
    (∀ (a rx tx now : Nat),
        Transport.drop ⟨some ⟨a, rx, tx⟩⟩ now =
          [Event.transportClose ⟨now - a, true, rx, tx⟩]) := by
  refine ⟨?_, step_terminal, fun a rx tx now => rfl⟩
  intro t0 tdrop ops ev hmem
  rcases exists_first_terminal ops with h | ⟨pre, q, post, e1, e2, e3⟩
  · rw [lifetime_nonterminal t0 tdrop ops h] at hmem
    simp only [List.mem_cons, List.mem_singleton, List.not_mem_nil, or_false,
      reduceCtorEq, false_or, Event.transportClose.injEq] at hmem
    subst hmem
    exact iff_of_true rfl h
  · obtain ⟨tn, op⟩ := q
    rw [e1, lifetime_terminal t0 tdrop tn op pre post e2 e3] at hmem
    simp only [List.mem_cons, List.mem_singleton, List.not_mem_nil, or_false,
      reduceCtorEq, false_or, Event.transportClose.injEq] at hmem
    subst hmem
    refine iff_of_false (by simp) ?_
    intro hall
    have hmemop : (tn, op) ∈ ops := by
      rw [e1]
      exact List.mem_append_right _ (List.mem_cons_self _ _)
    have hfalse := hall (tn, op) hmemop
    rw [e3] at hfalse
    cases hfalse

theorem clean_iff_no_terminal_error_witness :
    (Event.transportClose ⟨3, true, 0, 0⟩ ∈ lifetime 0 [] 3) ∧
    ((⟨3, true, 0, 0⟩ : TransportClose).clean = true ↔
      ∀ p ∈ ([] : List (Nat × Op)), p.2.isTerminal = false) := by
  have hmem : Event.transportClose ⟨3, true, 0, 0⟩ ∈ lifetime 0 [] 3 := by decide
  exact ⟨hmem, clean_iff_no_terminal_error.1 0 3 [] ⟨3, true, 0, 0⟩ hmem⟩

/-- Claim C4: a would-block error is propagated unchanged by every
operation while emitting no event and leaving the accounting state fully
unchanged; a later successful read of n bytes is still counted. -/
theorem would_block_transparent :
    (∀ (t : Transport) (now : Nat) (e : IOError),
        e.kind = ErrorKind.wouldBlock →
        t.read now (Except.error e) = (Except.error e, t, []) ∧
        t.write now (Except.error e) = (Except.error e, t, []) ∧
        t.write_buf now (Except.error e) = (Except.error e, t, []) ∧
        t.flush now (Except.error e) = (Except.error e, t, []) ∧
        t.shutdown now (Except.error e) = (Except.error e, t, []) ∧
        t.poll_peek now (Except.error e) = (Except.error e, t, [])) ∧
    (∀ (a rx tx now n : Nat),
        Transport.read ⟨some ⟨a, rx, tx⟩⟩ now (Except.ok n) =
          (Except.ok n, ⟨some ⟨a, rx + n, tx⟩⟩, [])) := by
  refine ⟨?_, read_ok⟩
  intro t now e hk
  exact ⟨read_wouldBlock t now e hk, write_wouldBlock t now e hk,
    write_buf_wouldBlock t now e hk, sense_err_wouldBlock t now e hk,
    sense_err_wouldBlock t now e hk, sense_err_wouldBlock t now e hk⟩

theorem would_block_transparent_witness :
    (IOError.mk ErrorKind.wouldBlock 0).kind = ErrorKind.wouldBlock ∧
    Transport.read ⟨some ⟨0, 2, 3⟩⟩ 1 (Except.error ⟨ErrorKind.wouldBlock, 0⟩) =
      (Except.error ⟨ErrorKind.wouldBlock, 0⟩, ⟨some ⟨0, 2, 3⟩⟩, []) :=
  ⟨rfl,
   (would_block_transparent.1 ⟨some ⟨0, 2, 3⟩⟩ 1 ⟨ErrorKind.wouldBlock, 0⟩ rfl).1⟩

/-- Claim C8: the duration carried by the close event equals the close
moment minus the construction timestamp, on both termination paths, and
is non-negative by construction. -/
theorem close_duration_elapsed :
    (∀ (t0 tdrop : Nat) (ops : List (Nat × Op)),
        (∀ p ∈ ops, p.2.isTerminal = false) → t0 ≤ tdrop →
        ∀ ev : TransportClose,
          Event.transportClose ev ∈ lifetime t0 ops tdrop →
            t0 + ev.duration = tdrop) ∧
    (∀ (t0 tdrop tn : Nat) (op : Op) (pre post : List (Nat × Op)),
        (∀ p ∈ pre, p.2.isTerminal = false) → op.isTerminal = true →
        t0 ≤ tn →
        ∀ ev : TransportClose,
          Event.transportClose ev ∈ lifetime t0 (pre ++ (tn, op) :: post) tdrop →
            t0 + ev.duration = tn) := by
  constructor
  · intro t0 tdrop ops h hle ev hmem
    rw [lifetime_nonterminal t0 tdrop ops h] at hmem
    simp only [List.mem_cons, List.mem_singleton, List.not_mem_nil, or_false,
      reduceCtorEq, false_or, Event.transportClose.injEq] at hmem
    subst hmem
    simp only [TransportClose.duration]
    omega
  · intro t0 tdrop tn op pre post h1 h2 hle ev hmem
    rw [lifetime_terminal t0 tdrop tn op pre post h1 h2] at hmem
    simp only [List.mem_cons, List.mem_singleton, List.not_mem_nil, or_false,
      reduceCtorEq, false_or, Event.transportClose.injEq] at hmem
    subst hmem
    simp only [TransportClose.duration]
    omega

theorem close_duration_elapsed_witness :
    ((∀ p ∈ ([] : List (Nat × Op)), p.2.isTerminal = false) ∧ 2 ≤ 5 ∧
      Event.transportClose ⟨3, true, 0, 0⟩ ∈ lifetime 2 [] 5) ∧
    2 + (TransportClose.mk 3 true 0 0).duration = 5 := by
  have h1 : ∀ p ∈ ([] : List (Nat × Op)), p.2.isTerminal = false := by decide
  have h2 : (2 : Nat) ≤ 5 := by decide
  have h3 : Event.transportClose ⟨3, true, 0, 0⟩ ∈ lifetime 2 [] 5 := by decide
  exact ⟨⟨h1, h2, h3⟩, close_duration_elapsed.1 2 5 [] h1 h2 ⟨3, true, 0, 0⟩ h3⟩

end TransportSensor
